import Mathlib

/-!
# Verification of the ergogen CLI shell (src/cli.js)

A shallow embedding of the input-normalization pipeline, the output
materializer, the generation orchestrator and the watch loop of the
ergogen command-line interface, together with theorems settling the
specification's claims about them.

JavaScript values are modelled by the inductive `JsVal`; filesystem
effects are modelled as explicit action lists; fallible operations
return `Except`.
-/

namespace Ergogen

/-- A JavaScript value, as far as the CLI shell inspects one:
`null`/`undefined` (the absence sentinels), booleans, integer numbers,
strings, and objects as ordered association lists. -/
inductive JsVal where
  | null
  | undefined
  | bool (b : Bool)
  | num (n : Int)
  | str (s : String)
  | obj (fields : List (String × JsVal))

/-- JavaScript truthiness, as used by `if (!data) return` and
`if (data[format])` in cli.js: `null`, `undefined`, `false`, `0` and
the empty string are falsy; objects are always truthy. -/
def truthy : JsVal → Bool
  | .null => false
  | .undefined => false
  | .bool b => b
  | .num n => n != 0
  | .str s => !(s == "")
  | .obj _ => true

/-- Charwise list-prefix test. -/
def isPre : List Char → List Char → Bool
  | [], _ => true
  | _ :: _, [] => false
  | a :: as, b :: bs => a == b && isPre as bs

/-- JS `String.prototype.endsWith`, charwise. -/
def strEndsWith (s suf : String) : Bool := isPre suf.data.reverse s.data.reverse

/-- Split a character list at every occurrence of `c`. -/
def splitChar (c : Char) : List Char → List (List Char)
  | [] => [[]]
  | x :: xs =>
    match splitChar c xs with
    | [] => if x == c then [[], []] else [[x]]
    | r :: rs => if x == c then [] :: r :: rs else (x :: r) :: rs

/-- JS `String.prototype.split` on a one-character separator,
charwise. -/
def strSplit (s : String) (c : Char) : List String :=
  (splitChar c s.data).map String.mk

/-- Join path segments with forward slashes. -/
def joinSlash : List String → String
  | [] => ""
  | [x] => x
  | x :: xs => x ++ "/" ++ joinSlash xs

/-- Property access `data[key]`: association-list lookup on an object,
`undefined` on a missing key or a non-object. -/
def getField (v : JsVal) (key : String) : JsVal :=
  match v with
  | .obj fields => ((fields.find? (fun f => f.1 == key)).map (·.2)).getD .undefined
  | _ => .undefined

/-- `path.join(a, b)` for the forward-slash relative paths cli.js uses. -/
def pjoin (a b : String) : String := a ++ "/" ++ b

/-- `path.dirname`: everything before the last slash, `"."` if none. -/
def dirname (p : String) : String :=
  let parts := strSplit p '/'
  if parts.length ≤ 1 then "." else joinSlash parts.dropLast

/-- One filesystem effect performed by the materializer:
`fs.mkdirpSync`, `fs.writeFileSync`, or `fs.removeSync`. -/
inductive FsAction where
  | mkdirp (p : String)
  | write (p : String) (content : JsVal)
  | remove (p : String)

/-- Modelled from the spec: the structured-text serializer is
`yaml.dump(data, indent 4, noRefs true)` from the external js-yaml
library, whose implementation is not under src/.  Per §4.3 it emits a
text with stable key order (the object's own order), a fixed
four-space indentation step, and no anchors or aliases: every
occurrence of a sub-structure is serialized in full by structural
recursion.  Rendered as a list of lines, one scalar per line. -/
def scalarText : JsVal → String
  | .null => "null"
  | .undefined => "null"
  | .bool b => if b then "true" else "false"
  | .num n => toString n
  | .str s => s
  | .obj _ => ""

/-- Spaces used for one indentation level times `n`. -/
def indentStr (n : Nat) : String := String.mk (List.replicate n ' ')

/-- Modelled from the spec (see `scalarText`): render the entries of an
object at indentation `ind`, descending four spaces per nesting level.
A repeated sub-value is re-rendered in full at each occurrence (the
`noRefs` behaviour: no aliases). -/
def dumpFields : Nat → List (String × JsVal) → List String
  | _, [] => []
  | ind, (k, v) :: rest =>
    (match v with
     | .obj fs => (indentStr ind ++ k ++ ":") :: dumpFields (ind + 4) fs
     | w => [indentStr ind ++ k ++ ": " ++ scalarText w]) ++ dumpFields ind rest

/-- The lines a single object entry `k: v` renders to at indentation
`ind` (split out of `dumpFields` so re-rendering can be stated). -/
def entryLines (ind : Nat) (k : String) (v : JsVal) : List String :=
  match v with
  | .obj fs => (indentStr ind ++ k ++ ":") :: dumpFields (ind + 4) fs
  | w => [indentStr ind ++ k ++ ": " ++ scalarText w]

/-- Modelled from the spec (see `scalarText`): `yamldump`, the
serializer `data => yaml.dump(data, indent 4, noRefs true)` of
cli.js line 55, as a pure function of the value. -/
def yamldump (v : JsVal) : String :=
  match v with
  | .obj fs => String.intercalate "\n" (dumpFields 0 fs) ++ "\n"
  | w => scalarText w ++ "\n"

/-- `single(data, output_directory, rel)` of cli.js: skip falsy
payloads, otherwise make the parent directory and write the payload,
YAML-serialized when the target ends in `.yaml`, verbatim otherwise. -/
def single (data : JsVal) (output_directory rel : String) : List FsAction :=
  if !truthy data then []
  else
    let abs := pjoin output_directory rel
    FsAction.mkdirp (dirname abs) ::
    (if strEndsWith abs ".yaml" then [FsAction.write abs (.str (yamldump data))]
     else [FsAction.write abs data])

/-- The actions the `for (const format of ['svg', 'dxf', 'jscad'])`
loop body of `composite` performs for one format tag. -/
def compositeFmtActs (data : JsVal) (abs fmt : String) : List FsAction :=
  if truthy (getField data fmt) then
    [FsAction.mkdirp (dirname abs), FsAction.write (abs ++ "." ++ fmt) (getField data fmt)]
  else []

/-- `composite(data, output_directory, rel)` of cli.js: skip falsy
payloads; write `rel + ".yaml"` serialized when the `yaml` tag is
truthy, then each of `svg`, `dxf`, `jscad` verbatim when truthy. -/
def composite (data : JsVal) (output_directory rel : String) : List FsAction :=
  if !truthy data then []
  else
    let abs := pjoin output_directory rel
    (if truthy (getField data "yaml") then
      [FsAction.mkdirp (dirname abs),
       FsAction.write (abs ++ ".yaml") (.str (yamldump (getField data "yaml")))]
     else []) ++
    (compositeFmtActs data abs "svg" ++ compositeFmtActs data abs "dxf" ++
     compositeFmtActs data abs "jscad")

/-- A node of a directory tree on disk: a regular file with its text
content, or a directory with named children. -/
inductive FsNode where
  | file (content : String)
  | dir (children : List (String × FsNode))

/-- What a path in the model filesystem resolves to for the Source
Resolver: a plain text file, a zip archive file (held as its entry
list), or a directory. -/
inductive FsEntry where
  | textFile (content : String)
  | zipFile (entries : List (String × String))
  | directory (children : List (String × FsNode))

/-- The model filesystem: a finite map from paths to entries. -/
abbrev FS := List (String × FsEntry)

/-- Path lookup in the model filesystem (`fs.statSync` / `readFileSync`
 targets). -/
def lookupFs (fs : FS) (p : String) : Option FsEntry :=
  ((fs.find? (fun e => e.1 == p)).map (·.2))

/-- Flatten a directory tree into archive entries, each a
posix-relative path under the accumulated path `pre` paired with the
file's content.  This is the entry set `zip_from_dir` produces:
`list_files_in_dir` enumerates every regular file recursively and each
is filed under its path relative to the root. -/
def flattenTree (pre : String) : List (String × FsNode) → List (String × String)
  | [] => []
  | (name, .file c) :: rest => (pre ++ name, c) :: flattenTree pre rest
  | (name, .dir cs) :: rest => flattenTree (pre ++ name ++ "/") cs ++ flattenTree pre rest

/-- `zip_from_dir` of cli.js: the in-memory archive built from a
directory's children, with entry paths relative to the root. -/
def zip_from_dir (children : List (String × FsNode)) : List (String × String) :=
  flattenTree "" children

/-- An injection: an auxiliary named resource registered with the
engine before generation. -/
structure Injection where
  type : String
  name : String
  value : String

/-- The type of the external archive-unpack operation
`io.unpack(zip) -> [config_text, injections]`. -/
abbrev Unpack := List (String × String) → String × List Injection

/-- The base name of an archive entry path (its last `/`-segment). -/
def baseName (p : String) : String := ((strSplit p '/').getLast?).getD p

/-- Modelled from the spec: the injection an archive entry yields under
`io.unpack` (from src/io.js, which is not under src/).  Per §4.2/§8 a
top-level entry is not an injection, while an entry under a category
sub-folder (e.g. `footprints/custom.js`) yields one injection whose
`type` is the category implied by the subpath (the folder name,
singular), whose `name` is the file's base name without extension, and
whose `value` is the entry's content. -/
def injectionOf (p content : String) : Option Injection :=
  match strSplit p '/' with
  | [] => none
  | [_] => none
  | cat :: _ :: _ =>
    some { type := if strEndsWith cat "s" then String.mk cat.data.dropLast else cat,
           name := (strSplit (baseName p) '.').headD (baseName p),
           value := content }

/-- Modelled from the spec: `io.unpack` (src/io.js, not under src/)
splits a unified archive into the UnpackedBundle fields: the top-level
config file's text, plus one injection per category-sub-folder entry,
in encounter order. -/
def unpack : Unpack := fun entries =>
  (((entries.find? (fun e => (strSplit e.1 '/').length == 1)).map (·.2)).getD "",
   entries.filterMap (fun e => injectionOf e.1 e.2))

/-- `read_config(config_file)` of cli.js, parametrized by the external
unpack operation `u`.  Dispatch: a path ending in `.zip` or `.ekb` is
loaded as an archive; otherwise a directory is archived with
`zip_from_dir` and unpacked the same way; otherwise the path is read
fully as plain text with no injections.  A read failure (missing path,
or a non-archive where an archive is expected) is logged with the
offending path and re-raised; the model carries the path as the error.
The result is the UnpackedBundle `(config_text, injections)`; the
caller registers every injection with the engine in order. -/
def read_config (u : Unpack) (fs : FS) (config_file : String) :
    Except String (String × List Injection) :=
  if strEndsWith config_file ".zip" || strEndsWith config_file ".ekb" then
    match lookupFs fs config_file with
    | some (.zipFile entries) => .ok (u entries)
    | _ => .error config_file
  else
    match lookupFs fs config_file with
    | some (.directory children) => .ok (u (zip_from_dir children))
    | some (.textFile content) => .ok (content, [])
    | _ => .error config_file

/-- A call on the external engine: `ergogen.inject(type, name, value)`
or `ergogen.process(config_text, debug, logger)`. -/
inductive EngineCall where
  | inject (type name value : String)
  | process (config_text : String) (debug : Bool)

/-- The `ergogen.inject` calls `read_config` makes for a bundle's
injections, in encounter order. -/
def injectCalls (injections : List Injection) : List EngineCall :=
  injections.map (fun i => EngineCall.inject i.type i.name i.value)

/-- The engine's ResultTree: fixed top-level keys; `outlines`, `cases`
and `pcbs` map artifact names to payloads. -/
structure ResultTree where
  raw : JsVal
  canonical : JsVal
  units : JsVal
  points : JsVal
  demo : JsVal
  outlines : List (String × JsVal)
  cases : List (String × JsVal)
  pcbs : List (String × JsVal)

/-- `generate_output(results, output_directory, clean)` of cli.js: an
optional clean of the output root, its (re)creation, then the fixed
relative-path bindings against the ResultTree. -/
def generate_output (results : ResultTree) (output_directory : String) (clean : Bool) :
    List FsAction :=
  (if clean then [FsAction.remove output_directory] else []) ++
  [FsAction.mkdirp output_directory] ++
  single results.raw output_directory "source/raw.txt" ++
  single results.canonical output_directory "source/canonical.yaml" ++
  single results.units output_directory "points/units.yaml" ++
  single results.points output_directory "points/points.yaml" ++
  composite results.demo output_directory "points/demo" ++
  (results.outlines.flatMap (fun nv => composite nv.2 output_directory ("outlines/" ++ nv.1))) ++
  (results.cases.flatMap (fun nv => composite nv.2 output_directory ("cases/" ++ nv.1))) ++
  (results.pcbs.flatMap (fun nv => single nv.2 output_directory ("pcbs/" ++ nv.1 ++ ".kicad_pcb")))

/-- The type of the engine call `ergogen.process`: it may fail with an
engine-specific error (a GenerationError). -/
abbrev Engine := String → Bool → Except String ResultTree

/-- The type of the materialization step as seen by the orchestrator:
it either fails (a MaterializationError) or yields the performed
filesystem actions. -/
abbrev Materializer := ResultTree → Except String (List FsAction)

/-- What one `generate` run produced: its log lines and the filesystem
actions it performed. -/
structure GenOut where
  logs : List String
  writes : List FsAction

/-- `generate(config_text, ...)` of cli.js: run the engine, then
materialize; any error from either step is caught and logged, and
`"Done."` plus a blank line are printed unconditionally.  The return
type is total: no error propagates to the caller. -/
def generate (engine : Engine) (mat : Materializer) (config_text : String) (debug : Bool) :
    GenOut :=
  match engine config_text debug with
  | .error e => { logs := [e, "Done.", ""], writes := [] }
  | .ok results =>
    match mat results with
    | .error e => { logs := [e, "Done.", ""], writes := [] }
    | .ok actions => { logs := ["Writing output to disk...", "Done.", ""], writes := actions }

/-- The engine-call trace of a single-shot run of the cli entry point:
`read_config` is invoked once at top level (line 207) and then, in the
non-watch branch, a second time (line 220), each invocation registering
the bundle's injections; `generate` then calls `ergogen.process` on the
re-read config text. -/
def main_single_calls (u : Unpack) (fs : FS) (config_file : String) (debug : Bool) :
    Except String (List EngineCall) :=
  match read_config u fs config_file with
  | .error e => .error e
  | .ok (_, injections1) =>
    match read_config u fs config_file with
    | .error e => .error e
    | .ok (config_text, injections2) =>
      .ok (injectCalls injections1 ++ injectCalls injections2 ++
           [EngineCall.process config_text debug])

/-- The exit code and log of a single-shot run whose config argument
exists: after the (double) read, `generate` runs with all failures
swallowed, `"Done."` is printed, and the process falls off the end of
the entry point, exiting with code 0.  A read failure propagates as a
ResolutionError. -/
def main_single (u : Unpack) (engine : Engine) (mat : Materializer) (fs : FS)
    (config_file : String) (debug : Bool) : Except String (Int × List String) :=
  match read_config u fs config_file with
  | .error e => .error e
  | .ok _ =>
    match read_config u fs config_file with
    | .error e => .error e
    | .ok (config_text, _) =>
      .ok (0, (generate engine mat config_text debug).logs)

/-- The watch loop's held state: the config text of the last completed
resolve. -/
structure WatchState where
  config_text : String

/-- The log line `read_config` emits on a failure, naming the offending
path. -/
def readErrLog (config_file : String) : String :=
  "Could not read config file \"" ++ config_file ++ "\"!"

/-- One activation of the `fs.watch` callback of cli.js: a notification
whose kind is not `"change"` is ignored; otherwise the config path is
re-resolved — a resolution failure is logged with the path and aborts
only this cycle (the state is kept, the watcher stays registered); an
unchanged text is ignored; otherwise the held text is replaced and the
orchestrator runs.  Returns the new state, the log lines, and the
orchestrator's output when it was invoked (`none` = not invoked, so no
files written). -/
def watch_step (u : Unpack) (engine : Engine) (mat : Materializer) (fs : FS)
    (config_file : String) (debug : Bool) (st : WatchState) (event : String) :
    WatchState × List String × Option GenOut :=
  if event != "change" then (st, [], none)
  else
    match read_config u fs config_file with
    | .error e => (st, [readErrLog e], none)
    | .ok (new_config_text, _) =>
      if new_config_text == st.config_text then (st, [], none)
      else
        ({ config_text := new_config_text },
         ["\"" ++ config_file ++ "\" changed, regenerating..."],
         some (generate engine mat new_config_text debug))

/-! ## Concrete fixtures -/

/-- The spec's scenario directory: a main `config.yaml` plus one
injection resource `footprints/custom.js`. -/
def demoDir (cfg js : String) : List (String × FsNode) :=
  [("config.yaml", .file cfg), ("footprints", .dir [("custom.js", .file js)])]

/-- A model filesystem holding the scenario directory at path `kb`. -/
def demoFs (cfg js : String) : FS := [("kb", .directory (demoDir cfg js))]

/-! ## Theorems -/

/-- C1: for a config path that is a directory with a main config file
and exactly one injection resource, the resolved bundle has exactly one
injection with the type implied by its subpath, but a single-shot run
calls `engine.inject` TWICE — `read_config` runs once at top level
(cli.js line 207) and again in the non-watch branch (line 220), each
registering the injection — before the single `engine.process` call.
The claim's "exactly once" fails on the code; the spec ("must be called
once per Injection") is the intent, the duplicated read a slip. -/
theorem single_shot_injects_twice (cfg js : String) (debug : Bool) :
    (read_config unpack (demoFs cfg js) "kb").map (fun b => b.2.length) = .ok 1 ∧
    main_single_calls unpack (demoFs cfg js) "kb" debug =
      .ok [EngineCall.inject "footprint" "custom" js,
           EngineCall.inject "footprint" "custom" js,
           EngineCall.process cfg debug] := by
  constructor
  · simp [read_config, demoFs, demoDir, lookupFs, zip_from_dir, flattenTree, unpack,
      injectionOf, strSplit, splitChar, baseName, strEndsWith, isPre, Except.map]
  · simp [main_single_calls, read_config, demoFs, demoDir, lookupFs, zip_from_dir,
      flattenTree, unpack, injectionOf, strSplit, splitChar, baseName, strEndsWith,
      isPre, injectCalls]

/-- C5: the writers are no-ops on an absent ("not produced") payload:
for both absence sentinels (`undefined` and `null`), `single` and
`composite` perform no filesystem action at all — zero files written,
zero directories created. -/
theorem writers_absent_noop (output_directory rel : String) :
    single .undefined output_directory rel = [] ∧
    composite .undefined output_directory rel = [] ∧
    single .null output_directory rel = [] ∧
    composite .null output_directory rel = [] :=
  ⟨rfl, rfl, rfl, rfl⟩

/-- C6: a composite payload carrying exactly the `svg` and `dxf` tags
(with non-empty contents) makes `composite` write exactly the files
`relative_base + ".svg"` and `relative_base + ".dxf"`, each verbatim
(byte-for-byte the payload value), and no `.yaml` or `.jscad` file:
the action list is exactly the two writes with their parent-directory
creations. -/
theorem composite_svg_dxf (output_directory rel s t : String)
    (hs : s ≠ "") (ht : t ≠ "") :
    composite (.obj [("svg", .str s), ("dxf", .str t)]) output_directory rel =
      [FsAction.mkdirp (dirname (pjoin output_directory rel)),
       FsAction.write (pjoin output_directory rel ++ ".svg") (.str s),
       FsAction.mkdirp (dirname (pjoin output_directory rel)),
       FsAction.write (pjoin output_directory rel ++ ".dxf") (.str t)] := by
  have hs1 : (s == "") = false := beq_eq_false_iff_ne.mpr hs
  have ht1 : (t == "") = false := beq_eq_false_iff_ne.mpr ht
  simp [composite, truthy, getField, compositeFmtActs, hs1, ht1, String.append_assoc]

/-- Witness for C6 at a concrete payload. -/
theorem composite_svg_dxf_witness :
    "x" ≠ "" ∧ "y" ≠ "" ∧
    composite (.obj [("svg", .str "x"), ("dxf", .str "y")]) "out" "points/demo" =
      [FsAction.mkdirp (dirname (pjoin "out" "points/demo")),
       FsAction.write (pjoin "out" "points/demo" ++ ".svg") (.str "x"),
       FsAction.mkdirp (dirname (pjoin "out" "points/demo")),
       FsAction.write (pjoin "out" "points/demo" ++ ".dxf") (.str "y")] :=
  ⟨by decide, by decide,
   composite_svg_dxf "out" "points/demo" "x" "y" (by decide) (by decide)⟩

/-- C10: the writers' absence check is JS truthiness: every falsy
payload — not just the absence sentinels, but also the empty string,
`0` and `false` — makes `single` and `composite` write nothing, so a
produced-but-empty artifact is silently dropped; and `composite` skips
any individual format tag whose value is falsy. -/
theorem writers_falsy_skip (output_directory rel abs fmt : String) (v d : JsVal)
    (hv : truthy v = false) (hd : truthy (getField d fmt) = false) :
    single v output_directory rel = [] ∧
    composite v output_directory rel = [] ∧
    compositeFmtActs d abs fmt = [] ∧
    truthy (.str "") = false ∧ truthy (.num 0) = false ∧ truthy (.bool false) = false := by
  refine ⟨?_, ?_, ?_, rfl, rfl, rfl⟩
  · simp [single, hv]
  · simp [composite, hv]
  · simp [compositeFmtActs, hd]

/-- Witness for C10: a produced-but-empty string payload and an empty
`svg` tag are both dropped. -/
theorem writers_falsy_skip_witness :
    truthy (.str "") = false ∧
    truthy (getField (.obj [("svg", .str "")]) "svg") = false ∧
    single (.str "") "out" "outlines/o.svg" = [] ∧
    composite (.str "") "out" "outlines/o" = [] ∧
    compositeFmtActs (.obj [("svg", .str "")]) "out/outlines/o" "svg" = [] :=
  have h1 : truthy (.str "") = false := rfl
  have h2 : truthy (getField (.obj [("svg", .str "")]) "svg") = false := rfl
  ⟨h1, h2,
   (writers_falsy_skip "out" "outlines/o.svg" "out/outlines/o" "svg" (.str "")
      (.obj [("svg", .str "")]) h1 h2).1,
   (writers_falsy_skip "out" "outlines/o" "out/outlines/o" "svg" (.str "")
      (.obj [("svg", .str "")]) h1 h2).2.1,
   (writers_falsy_skip "out" "outlines/o" "out/outlines/o" "svg" (.str "")
      (.obj [("svg", .str "")]) h1 h2).2.2.1⟩

/-- C7: the structured-text serializer is a deterministic pure function
of its input (serializing twice is byte-identical), and a value whose
sub-structure occurs several times is re-serialized in full at every
occurrence — the output of an object holding the same sub-value under
two keys is exactly the concatenation of the two independent full
renderings (no alias or shared-reference artifact), with nested
renderings at the fixed four-space-deeper indentation. -/
theorem yamldump_stable_norefs (v : JsVal) (a b : String) (ind : Nat) :
    yamldump v = yamldump v ∧
    dumpFields ind [(a, v), (b, v)] = entryLines ind a v ++ entryLines ind b v ∧
    entryLines ind a (.obj [(b, v)]) =
      (indentStr ind ++ a ++ ":") :: dumpFields (ind + 4) [(b, v)] := by
  refine ⟨rfl, ?_, rfl⟩
  cases v <;> simp [dumpFields, entryLines]

/-- C8: the Source Resolver dispatches in exactly three ways on the
config path: a path with one of the two recognized archive extensions
(`.zip`, the generic archive suffix, or `.ekb`, the domain-specific
bundle suffix) is loaded as an archive and unpacked; otherwise a
directory is archived by `zip_from_dir` and unpacked the same way; and
otherwise the path is read fully as plain text, with an empty
injections list. -/
theorem read_config_dispatch (u : Unpack) (fs : FS) (p : String) :
    ((strEndsWith p ".zip" || strEndsWith p ".ekb") = true →
      ∀ entries, lookupFs fs p = some (.zipFile entries) →
        read_config u fs p = .ok (u entries)) ∧
    ((strEndsWith p ".zip" || strEndsWith p ".ekb") = false →
      ∀ children, lookupFs fs p = some (.directory children) →
        read_config u fs p = .ok (u (zip_from_dir children))) ∧
    ((strEndsWith p ".zip" || strEndsWith p ".ekb") = false →
      ∀ content, lookupFs fs p = some (.textFile content) →
        read_config u fs p = .ok (content, [])) := by
  refine ⟨?_, ?_, ?_⟩ <;> intro h x hx <;> simp [read_config, h, hx]

/-- Witness for C8: one concrete path of each of the three kinds. -/
theorem read_config_dispatch_witness :
    (strEndsWith "a.zip" ".zip" || strEndsWith "a.zip" ".ekb") = true ∧
    read_config unpack [("a.zip", FsEntry.zipFile [("config.yaml", "x")])] "a.zip" =
      .ok (unpack [("config.yaml", "x")]) ∧
    read_config unpack [("kb2", FsEntry.directory [("config.yaml", FsNode.file "y")])] "kb2" =
      .ok (unpack (zip_from_dir [("config.yaml", FsNode.file "y")])) ∧
    read_config unpack [("c.yaml", FsEntry.textFile "hello")] "c.yaml" = .ok ("hello", []) :=
  ⟨by decide,
   (read_config_dispatch unpack [("a.zip", FsEntry.zipFile [("config.yaml", "x")])]
      "a.zip").1 (by decide) [("config.yaml", "x")] rfl,
   (read_config_dispatch unpack [("kb2", FsEntry.directory [("config.yaml", FsNode.file "y")])]
      "kb2").2.1 (by decide) [("config.yaml", FsNode.file "y")] rfl,
   (read_config_dispatch unpack [("c.yaml", FsEntry.textFile "hello")]
      "c.yaml").2.2 (by decide) "hello" rfl⟩

/-- C9: directory/archive equivalence — resolving an archive file that
holds the in-memory archive of a directory tree yields the same
UnpackedBundle as resolving the directory path directly. -/
theorem dir_archive_equiv (u : Unpack) (fs : FS) (pz pd : String)
    (tree : List (String × FsNode))
    (hz : (strEndsWith pz ".zip" || strEndsWith pz ".ekb") = true)
    (hzf : lookupFs fs pz = some (.zipFile (zip_from_dir tree)))
    (hd : (strEndsWith pd ".zip" || strEndsWith pd ".ekb") = false)
    (hdd : lookupFs fs pd = some (.directory tree)) :
    read_config u fs pz = read_config u fs pd := by
  simp [read_config, hz, hd, hzf, hdd]

/-- Witness for C9 on a one-file tree. -/
theorem dir_archive_equiv_witness :
    (strEndsWith "a.zip" ".zip" || strEndsWith "a.zip" ".ekb") = true ∧
    (strEndsWith "d" ".zip" || strEndsWith "d" ".ekb") = false ∧
    read_config unpack
        [("a.zip", FsEntry.zipFile (zip_from_dir [("config.yaml", FsNode.file "c")])),
         ("d", FsEntry.directory [("config.yaml", FsNode.file "c")])] "a.zip" =
      read_config unpack
        [("a.zip", FsEntry.zipFile (zip_from_dir [("config.yaml", FsNode.file "c")])),
         ("d", FsEntry.directory [("config.yaml", FsNode.file "c")])] "d" :=
  ⟨by decide, by decide,
   dir_archive_equiv unpack
     [("a.zip", FsEntry.zipFile (zip_from_dir [("config.yaml", FsNode.file "c")])),
      ("d", FsEntry.directory [("config.yaml", FsNode.file "c")])]
     "a.zip" "d" [("config.yaml", FsNode.file "c")] (by decide) rfl (by decide) rfl⟩

/-- C2: the Generation Orchestrator never propagates a failure of
engine processing or of output materialization: for every engine, every
materializer, every config text and every debug flag, `generate`
returns totally, with a log that always ends in `"Done."` and a blank
line; and a single-shot run whose initial read succeeded exits with
code 0 regardless of those failures. -/
theorem generate_isolates (engine : Engine) (mat : Materializer) (u : Unpack) (fs : FS)
    (config_file : String) (debug : Bool) (b : String × List Injection)
    (hread : read_config u fs config_file = .ok b) :
    (∀ config_text, ∃ l, (generate engine mat config_text debug).logs = l ++ ["Done.", ""]) ∧
    ∃ logs, main_single u engine mat fs config_file debug = .ok (0, logs) ∧
      ∃ l, logs = l ++ ["Done.", ""] := by
  obtain ⟨t, inj⟩ := b
  have hgen : ∀ ct, ∃ l, (generate engine mat ct debug).logs = l ++ ["Done.", ""] := by
    intro ct
    cases he : engine ct debug with
    | error e => exact ⟨[e], by simp [generate, he]⟩
    | ok r =>
      cases hm : mat r with
      | error e => exact ⟨[e], by simp [generate, he, hm]⟩
      | ok a => exact ⟨["Writing output to disk..."], by simp [generate, he, hm]⟩
  refine ⟨hgen, (generate engine mat t debug).logs, ?_, hgen t⟩
  simp [main_single, hread]

/-- Witness for C2: an engine and a materializer that both fail still
yield a `"Done."`-terminated log and exit code 0. -/
theorem generate_isolates_witness :
    read_config unpack [("c.yaml", FsEntry.textFile "t")] "c.yaml" = .ok ("t", []) ∧
    (∃ l, (generate (fun _ _ => .error "boom") (fun _ => .error "disk") "t" false).logs =
      l ++ ["Done.", ""]) ∧
    ∃ logs, main_single unpack (fun _ _ => .error "boom") (fun _ => .error "disk")
        [("c.yaml", FsEntry.textFile "t")] "c.yaml" false = .ok (0, logs) ∧
      ∃ l, logs = l ++ ["Done.", ""] :=
  have h : read_config unpack [("c.yaml", FsEntry.textFile "t")] "c.yaml" = .ok ("t", []) := rfl
  have r := generate_isolates (fun _ _ => .error "boom") (fun _ => .error "disk") unpack
    [("c.yaml", FsEntry.textFile "t")] "c.yaml" false ("t", []) h
  ⟨h, r.1 "t", r.2⟩

/-- C3: in watch mode a resolution failure while re-resolving after a
change notification is logged with the offending path and aborts only
that cycle — the held state is unchanged and the orchestrator is not
invoked — while the loop stays able to process a later notification:
the same state then regenerates normally on a successful re-resolve
with changed text. -/
theorem watch_resolution_error_isolated (u : Unpack) (engine : Engine) (mat : Materializer)
    (fs1 fs2 : FS) (p : String) (debug : Bool) (st : WatchState) (e t : String)
    (inj : List Injection)
    (h1 : read_config u fs1 p = .error e)
    (h2 : read_config u fs2 p = .ok (t, inj))
    (h3 : t ≠ st.config_text) :
    watch_step u engine mat fs1 p debug st "change" = (st, [readErrLog e], none) ∧
    watch_step u engine mat fs2 p debug st "change" =
      ({ config_text := t }, ["\"" ++ p ++ "\" changed, regenerating..."],
       some (generate engine mat t debug)) := by
  have h3' : (t == st.config_text) = false := beq_eq_false_iff_ne.mpr h3
  constructor
  · simp [watch_step, h1]
  · simp [watch_step, h2, h3']

/-- Witness for C3: a failing cycle (missing path) followed by a
successful one from the same held state. -/
theorem watch_resolution_error_isolated_witness :
    read_config unpack [] "c.yaml" = .error "c.yaml" ∧
    read_config unpack [("c.yaml", FsEntry.textFile "new")] "c.yaml" = .ok ("new", []) ∧
    "new" ≠ "old" ∧
    watch_step unpack (fun _ _ => .error "g") (fun _ => .ok []) [] "c.yaml" false
        ⟨"old"⟩ "change" = (⟨"old"⟩, [readErrLog "c.yaml"], none) ∧
    watch_step unpack (fun _ _ => .error "g") (fun _ => .ok [])
        [("c.yaml", FsEntry.textFile "new")] "c.yaml" false ⟨"old"⟩ "change" =
      (⟨"new"⟩, ["\"" ++ "c.yaml" ++ "\" changed, regenerating..."],
       some (generate (fun _ _ => .error "g") (fun _ => .ok []) "new" false)) :=
  have r := watch_resolution_error_isolated unpack (fun _ _ => .error "g") (fun _ => .ok [])
    [] [("c.yaml", FsEntry.textFile "new")] "c.yaml" false ⟨"old"⟩ "c.yaml" "new" []
    rfl rfl (by decide)
  ⟨rfl, rfl, by decide, r.1, r.2⟩

/-- C4: watch-mode change suppression — a notification whose kind is
not a content modification (`"change"`) is ignored outright, and a
`"change"` notification whose re-resolved config text is byte-identical
to the held text triggers no regeneration: in both cases the state is
unchanged, nothing is logged, the orchestrator is not invoked and no
file is written. -/
theorem watch_change_suppression (u : Unpack) (engine : Engine) (mat : Materializer)
    (fs : FS) (p : String) (debug : Bool) (st : WatchState) (event t : String)
    (inj : List Injection)
    (hev : event ≠ "change")
    (hread : read_config u fs p = .ok (t, inj))
    (heq : t = st.config_text) :
    watch_step u engine mat fs p debug st event = (st, [], none) ∧
    watch_step u engine mat fs p debug st "change" = (st, [], none) := by
  have hev' : (event != "change") = true := bne_iff_ne.mpr hev
  have heq' : (t == st.config_text) = true := beq_iff_eq.mpr heq
  constructor
  · simp [watch_step, hev']
  · simp [watch_step, hread, heq']

/-- Witness for C4: a `"rename"` notification and an unchanged-text
`"change"` notification are both suppressed. -/
theorem watch_change_suppression_witness :
    "rename" ≠ "change" ∧
    read_config unpack [("c.yaml", FsEntry.textFile "same")] "c.yaml" = .ok ("same", []) ∧
    watch_step unpack (fun _ _ => .error "g") (fun _ => .ok [])
        [("c.yaml", FsEntry.textFile "same")] "c.yaml" false ⟨"same"⟩ "rename" =
      (⟨"same"⟩, [], none) ∧
    watch_step unpack (fun _ _ => .error "g") (fun _ => .ok [])
        [("c.yaml", FsEntry.textFile "same")] "c.yaml" false ⟨"same"⟩ "change" =
      (⟨"same"⟩, [], none) :=
  have r := watch_change_suppression unpack (fun _ _ => .error "g") (fun _ => .ok [])
    [("c.yaml", FsEntry.textFile "same")] "c.yaml" false ⟨"same"⟩ "rename" "same" []
    (by decide) rfl rfl
  ⟨by decide, rfl, r.1, r.2⟩

end Ergogen
